import Mathlib

/-!
Verification of the randlib LFSR pseudo-random number generator.

The definitions below are a shallow embedding of src/lib.rs. The 128-bit
seed (Rust type u128) is modelled as a natural number together with
explicit reduction modulo 2 ^ 128 wherever u128 arithmetic wraps. Each
accessor of the Rust struct is modelled as a state-passing function
taking the current seed and returning the produced value paired with the
new seed. Floating-point arithmetic is idealized as exact rational
arithmetic.
-/

namespace Randlib

/-- Size of the seed type (u128) in bytes, modelling SEED_SIZE. -/
def SEED_SIZE : Nat := 16

/-- Size of the seed type in bits, modelling SEED_SIZE_BITS. -/
def SEED_SIZE_BITS : Nat := SEED_SIZE * 8

/-- Model of Random::rotate. The Rust body is
    let newbit = self.seed ^ (self.seed >> 1) ^ (self.seed >> 2) ^ (self.seed >> 7);
    self.seed = (self.seed >> 1) | (newbit << 127);
    where all operations are on u128, so the left shift keeps only the low
    bit of newbit (the rest overflows past bit 127) and the result is a
    128-bit value. -/
def rotate (s : Nat) : Nat :=
  let newbit := s ^^^ (s >>> 1) ^^^ (s >>> 2) ^^^ (s >>> 7)
  ((s >>> 1) ||| ((newbit <<< 127) % 2 ^ 128)) % 2 ^ 128

/-- Model of Random::random: rotate the seed, then return the (new) seed. -/
def random (s : Nat) : Nat × Nat :=
  let s' := rotate s
  (s', s')

/-- Model of Random::rand_u128, an alias of random. -/
def rand_u128 (s : Nat) : Nat × Nat := random s

/-- Model of Random::rand_bool: (self.random() >> (SEED_SIZE_BITS - 1) & 1) == 1. -/
def rand_bool (s : Nat) : Bool × Nat :=
  let r := random s
  (((r.1 >>> (SEED_SIZE_BITS - 1)) &&& 1) == 1, r.2)

/-- Model of the implement_unsigned macro body
    (self.random() % (T::MAX as Seed)) as T,
    instantiated with maxT = T::MAX and the truncating cast as T taken
    modulo 2 ^ bits. -/
def implement_unsigned (maxT : Nat) (bits : Nat) (s : Nat) : Nat × Nat :=
  let r := random s
  ((r.1 % maxT) % 2 ^ bits, r.2)

/-- Model of Random::rand_u8. -/
def rand_u8 : Nat → Nat × Nat := implement_unsigned (2 ^ 8 - 1) 8

/-- Model of Random::rand_u16. -/
def rand_u16 : Nat → Nat × Nat := implement_unsigned (2 ^ 16 - 1) 16

/-- Model of Random::rand_u32. -/
def rand_u32 : Nat → Nat × Nat := implement_unsigned (2 ^ 32 - 1) 32

/-- Model of Random::rand_u64. -/
def rand_u64 : Nat → Nat × Nat := implement_unsigned (2 ^ 64 - 1) 64

/-- Two's-complement reinterpretation of a natural number as a signed
    integer of the given bit width, modelling Rust's as iN cast from u128. -/
def toSigned (bits : Nat) (x : Nat) : Int :=
  let r := x % 2 ^ bits
  if r < 2 ^ (bits - 1) then (r : Int) else (r : Int) - 2 ^ bits

/-- Model of the implement_signed macro body:
    let mut n = (self.random() % (T::MAX as Seed)) as T;
    if self.rand_bool() { n *= -1; }
    n
    where T::MAX as Seed is 2 ^ (bits - 1) - 1 for an N-bit signed type. -/
def implement_signed (bits : Nat) (s : Nat) : Int × Nat :=
  let r := random s
  let n := toSigned bits (r.1 % (2 ^ (bits - 1) - 1))
  let b := rand_bool r.2
  (if b.1 then n * -1 else n, b.2)

/-- Model of Random::rand_i8. -/
def rand_i8 : Nat → Int × Nat := implement_signed 8

/-- Model of Random::rand_i16. -/
def rand_i16 : Nat → Int × Nat := implement_signed 16

/-- Model of Random::rand_i32. -/
def rand_i32 : Nat → Int × Nat := implement_signed 32

/-- Model of Random::rand_i64. -/
def rand_i64 : Nat → Int × Nat := implement_signed 64

/-- Model of Random::rand_i128. -/
def rand_i128 : Nat → Int × Nat := implement_signed 128

/-- Model of the implement_floating macro body
    self.rand_u64() as FT / UT::MAX as FT
    with float arithmetic idealized as exact rational arithmetic. Note that
    the source calls rand_u64 in BOTH instantiations of the macro; only the
    divisor UT::MAX depends on the macro parameter. -/
def implement_floating (maxUT : Nat) (s : Nat) : ℚ × Nat :=
  let r := rand_u64 s
  ((r.1 : ℚ) / (maxUT : ℚ), r.2)

/-- Model of Random::rand_f64, from implement_floating!(f64, u64, rand_f64). -/
def rand_f64 : Nat → ℚ × Nat := implement_floating (2 ^ 64 - 1)

/-- Model of Random::rand_f32, from implement_floating!(f32, u32, rand_f32). -/
def rand_f32 : Nat → ℚ × Nat := implement_floating (2 ^ 32 - 1)

/-- Error kind for the two fallible operations in read_from_randdev:
    opening the device file, and reading exactly SEED_SIZE bytes from it. -/
inductive IoError where
  | openFailed
  | shortRead
deriving DecidableEq

/-- Environment supplying the external collaborators: the system clock,
    the libc rand() call, and the contents readable from a device file
    (none models a file that cannot be opened; a list shorter than
    SEED_SIZE models a short read). -/
structure Env where
  timeVal : Int
  crandVal : Int
  device : String → Option (List Nat)

/-- Model of the RandomSeedSource enum. -/
inductive RandomSeedSource where
  | Manual (n : Nat)
  | SystemTime
  | Crand
  | UrandomDev
  | RandomDev

/-- Little-endian interpretation of a byte list as an unsigned integer,
    modelling u128::from_le_bytes. -/
def fromLeBytes (l : List Nat) : Nat :=
  l.foldr (fun b acc => b % 256 + 256 * acc) 0

/-- Model of RandomSeedSource::read_from_randdev. The two .unwrap() calls
    in the source abort on failure; failure is modelled as an error result
    that propagates to the caller. -/
def read_from_randdev (env : Env) (dev : String) : Except IoError Nat :=
  match env.device dev with
  | none => .error .openFailed
  | some bs =>
    if bs.length < SEED_SIZE then .error .shortRead
    else .ok (fromLeBytes (bs.take SEED_SIZE))

/-- Model of RandomSeedSource::get_seed. -/
def get_seed (env : Env) (src : RandomSeedSource) : Except IoError Nat :=
  match src with
  | .Manual n => .ok n
  | .SystemTime => .ok (env.timeVal.natAbs % 2 ^ 128)
  | .Crand => .ok (env.crandVal.natAbs % 2 ^ 128)
  | .UrandomDev => read_from_randdev env "urandom"
  | .RandomDev => read_from_randdev env "random"

/-- Model of the Random struct: it holds only the current seed. -/
structure Random where
  seed : Nat

/-- Model of Random::new. -/
def Random.new (env : Env) (src : RandomSeedSource) : Except IoError Random :=
  (get_seed env src).map Random.mk

/-- Failure condition of a device read: the file cannot be opened, or it
    yields fewer than SEED_SIZE bytes. -/
def deviceFails (env : Env) (dev : String) : Prop :=
  env.device dev = none ∨ ∃ bs, env.device dev = some bs ∧ bs.length < SEED_SIZE

/-- The value produced by one accessor call, tagged by its type. -/
inductive Val where
  | n (x : Nat)
  | i (x : Int)
  | b (x : Bool)
  | q (x : ℚ)
deriving DecidableEq

/-- One accessor call of the public API. -/
inductive Call where
  | cRandom | cU128 | cBool
  | cU8 | cU16 | cU32 | cU64
  | cI8 | cI16 | cI32 | cI64 | cI128
  | cF32 | cF64
deriving DecidableEq

/-- Dispatch one accessor call on the current seed. -/
def step (c : Call) (s : Nat) : Val × Nat :=
  match c with
  | .cRandom => let r := random s; (.n r.1, r.2)
  | .cU128 => let r := rand_u128 s; (.n r.1, r.2)
  | .cBool => let r := rand_bool s; (.b r.1, r.2)
  | .cU8 => let r := rand_u8 s; (.n r.1, r.2)
  | .cU16 => let r := rand_u16 s; (.n r.1, r.2)
  | .cU32 => let r := rand_u32 s; (.n r.1, r.2)
  | .cU64 => let r := rand_u64 s; (.n r.1, r.2)
  | .cI8 => let r := rand_i8 s; (.i r.1, r.2)
  | .cI16 => let r := rand_i16 s; (.i r.1, r.2)
  | .cI32 => let r := rand_i32 s; (.i r.1, r.2)
  | .cI64 => let r := rand_i64 s; (.i r.1, r.2)
  | .cI128 => let r := rand_i128 s; (.i r.1, r.2)
  | .cF32 => let r := rand_f32 s; (.q r.1, r.2)
  | .cF64 => let r := rand_f64 s; (.q r.1, r.2)

/-- Drive a generator through a sequence of accessor calls, collecting the
    produced values and the final seed. -/
def run : List Call → Nat → List Val × Nat
  | [], s => ([], s)
  | c :: cs, s =>
    let r := step c s
    let rest := run cs r.2
    (r.1 :: rest.1, rest.2)

/-! Helper lemmas about the bit-level arithmetic of rotate. -/

lemma lor_two_pow_eq_add {n a : Nat} (h : a < 2 ^ n) : a ||| 2 ^ n = a + 2 ^ n := by
  apply Nat.eq_of_testBit_eq
  intro i
  rw [Nat.testBit_lor, Nat.add_comm]
  rcases lt_trichotomy i n with hi | hi | hi
  · rw [Nat.testBit_two_pow_add_gt hi, Nat.testBit_two_pow]
    simp [Nat.ne_of_gt hi]
  · subst hi
    rw [Nat.testBit_two_pow_add_eq, Nat.testBit_lt_two_pow h, Nat.testBit_two_pow]
    simp
  · have h1 : a.testBit i = false :=
      Nat.testBit_lt_two_pow (lt_trans h (Nat.pow_lt_pow_right one_lt_two hi))
    have h2 : (2 ^ n + a).testBit i = false := by
      apply Nat.testBit_lt_two_pow
      calc 2 ^ n + a < 2 ^ n + 2 ^ n := by omega
        _ = 2 ^ (n + 1) := by ring
        _ ≤ 2 ^ i := Nat.pow_le_pow_right (by norm_num) hi
    rw [h1, h2, Nat.testBit_two_pow]
    simp [Nat.ne_of_lt hi]

lemma lor_bit127_eq_add (a b : Nat) (ha : a < 2 ^ 127) (hb : b < 2) :
    a ||| b * 2 ^ 127 = a + b * 2 ^ 127 := by
  interval_cases b
  · simp
  · rw [one_mul, lor_two_pow_eq_add ha]

lemma shiftLeft127_mod (x : Nat) : (x <<< 127) % 2 ^ 128 = x % 2 * 2 ^ 127 := by
  rw [Nat.shiftLeft_eq]
  have h : (2 : Nat) ^ 128 = 2 * 2 ^ 127 := by norm_num
  rw [h, Nat.mul_mod_mul_right]

lemma xor_mod_two (x y : Nat) : (x ^^^ y) % 2 = x % 2 ^^^ y % 2 := by
  rw [← Nat.and_one_is_mod, ← Nat.and_one_is_mod, ← Nat.and_one_is_mod,
    Nat.and_xor_distrib_right]

lemma xor_lt_two {a b : Nat} (ha : a < 2) (hb : b < 2) : a ^^^ b < 2 := by
  interval_cases a <;> interval_cases b <;> decide

/-- The rotated state written as a sum: the shifted-down low part plus the
    feedback bit placed at position 127. -/
lemma rotate_eq_add (s : Nat) (hs : s < 2 ^ 128) :
    rotate s = s / 2 + (s ^^^ s / 2 ^^^ s / 4 ^^^ s / 128) % 2 * 2 ^ 127 := by
  have e1 : s >>> 1 = s / 2 := by rw [Nat.shiftRight_eq_div_pow]
  have e2 : s >>> 2 = s / 4 := by rw [Nat.shiftRight_eq_div_pow]
  have e7 : s >>> 7 = s / 128 := by rw [Nat.shiftRight_eq_div_pow]
  have hs2 : s / 2 < 2 ^ 127 := by omega
  have hb : (s ^^^ s / 2 ^^^ s / 4 ^^^ s / 128) % 2 < 2 := Nat.mod_lt _ (by norm_num)
  simp only [rotate, e1, e2, e7]
  rw [shiftLeft127_mod, lor_bit127_eq_add _ _ hs2 hb]
  exact Nat.mod_eq_of_lt (by omega)

/-- The rotated state with the feedback bit expanded into the XOR of the
    four tapped low bits. -/
lemma rotate_eq_add_bits (s : Nat) (hs : s < 2 ^ 128) :
    rotate s =
      s / 2 + (s % 2 ^^^ s / 2 % 2 ^^^ s / 4 % 2 ^^^ s / 128 % 2) * 2 ^ 127 := by
  rw [rotate_eq_add s hs, xor_mod_two, xor_mod_two, xor_mod_two]

/-- Claim C1: for every 128-bit state s, one rotation replaces the state by
    (s >>> 1) ||| (newbit <<< 127), where newbit is the least-significant bit
    of the feedback s ^^^ (s >>> 1) ^^^ (s >>> 2) ^^^ (s >>> 7); in
    particular rotating the state 1 once yields 1 <<< 127. -/
theorem rotate_matches_spec_formula :
    (∀ s : Nat, s < 2 ^ 128 →
      rotate s =
        (s >>> 1) ||| (((s ^^^ s >>> 1 ^^^ s >>> 2 ^^^ s >>> 7) % 2) <<< 127)) ∧
    rotate 1 = 1 <<< 127 := by
  constructor
  · intro s hs
    have e1 : s >>> 1 = s / 2 := by rw [Nat.shiftRight_eq_div_pow]
    have e2 : s >>> 2 = s / 4 := by rw [Nat.shiftRight_eq_div_pow]
    have e7 : s >>> 7 = s / 128 := by rw [Nat.shiftRight_eq_div_pow]
    have hs2 : s / 2 < 2 ^ 127 := by omega
    have hb : (s ^^^ s / 2 ^^^ s / 4 ^^^ s / 128) % 2 < 2 :=
      Nat.mod_lt _ (by norm_num)
    rw [rotate_eq_add s hs, e1, e2, e7, Nat.shiftLeft_eq,
      lor_bit127_eq_add _ _ hs2 hb]
  · decide

/-- Witness for C1: the rotation formula evaluated at the concrete state 5. -/
theorem rotate_matches_spec_formula_witness :
    (5 : Nat) < 2 ^ 128 ∧
    rotate 5 =
      (5 >>> 1) |||
        ((((5 : Nat) ^^^ 5 >>> 1 ^^^ 5 >>> 2 ^^^ 5 >>> 7) % 2) <<< 127) :=
  ⟨by decide, rotate_matches_spec_formula.1 5 (by decide)⟩

/-- Claim C7: the all-zero state is a fixed point of rotate, and rotating
    any nonzero 128-bit state never yields the all-zero state. -/
theorem rotate_zero_fixed_nonzero_preserved :
    rotate 0 = 0 ∧ ∀ s : Nat, s < 2 ^ 128 → s ≠ 0 → rotate s ≠ 0 := by
  constructor
  · decide
  · intro s hs hne
    by_cases h1 : s = 1
    · subst h1; decide
    · rw [rotate_eq_add s hs]
      have h2 : 1 ≤ s / 2 := by omega
      set b := (s ^^^ s / 2 ^^^ s / 4 ^^^ s / 128) % 2 with hb
      omega

/-- Witness for C7: the nonzero state 1 rotates to a nonzero state. -/
theorem rotate_zero_fixed_nonzero_preserved_witness :
    (1 : Nat) < 2 ^ 128 ∧ (1 : Nat) ≠ 0 ∧ rotate 1 ≠ 0 :=
  ⟨by decide, by decide,
    rotate_zero_fixed_nonzero_preserved.2 1 (by decide) (by decide)⟩

/-- Claim C9: rotate is injective on 128-bit states: distinct states never
    merge into the same successor. -/
theorem rotate_injective_on_states (s t : Nat) (hs : s < 2 ^ 128)
    (ht : t < 2 ^ 128) (h : rotate s = rotate t) : s = t := by
  rw [rotate_eq_add_bits s hs, rotate_eq_add_bits t ht] at h
  have hm : ∀ x : Nat, x % 2 < 2 := fun x => Nat.mod_lt _ (by norm_num)
  have hbs : s % 2 ^^^ s / 2 % 2 ^^^ s / 4 % 2 ^^^ s / 128 % 2 < 2 :=
    xor_lt_two (xor_lt_two (xor_lt_two (hm s) (hm _)) (hm _)) (hm _)
  have hbt : t % 2 ^^^ t / 2 % 2 ^^^ t / 4 % 2 ^^^ t / 128 % 2 < 2 :=
    xor_lt_two (xor_lt_two (xor_lt_two (hm t) (hm _)) (hm _)) (hm _)
  have hs2 : s / 2 < 2 ^ 127 := by omega
  have ht2 : t / 2 < 2 ^ 127 := by omega
  have hdiv : s / 2 = t / 2 := by omega
  have hbit : s % 2 ^^^ s / 2 % 2 ^^^ s / 4 % 2 ^^^ s / 128 % 2 =
      t % 2 ^^^ t / 2 % 2 ^^^ t / 4 % 2 ^^^ t / 128 % 2 := by omega
  have h4 : s / 4 = t / 4 := by omega
  have h128 : s / 128 = t / 128 := by omega
  rw [← hdiv, ← h4, ← h128] at hbit
  simp only [Nat.xor_left_inj] at hbit
  omega

/-- Witness for C9: injectivity applied at the concrete state 3. -/
theorem rotate_injective_on_states_witness :
    (3 : Nat) < 2 ^ 128 ∧ rotate 3 = rotate 3 ∧ (3 : Nat) = 3 :=
  ⟨by decide, rfl, rotate_injective_on_states 3 3 (by decide) (by decide) rfl⟩

lemma implement_unsigned_eq (maxT bits s : Nat) (h0 : 0 < maxT)
    (h : maxT ≤ 2 ^ bits) :
    implement_unsigned maxT bits s = (rotate s % maxT, rotate s) := by
  simp only [implement_unsigned, random]
  rw [Nat.mod_eq_of_lt (lt_of_lt_of_le (Nat.mod_lt _ h0) h)]

/-- Claim C2: each unsigned accessor rand_uN (N in {8,16,32,64}) performs
    one rotation and returns S mod (2 ^ N - 1) where S is the rotated
    state, so its value always lies below 2 ^ N - 1. -/
theorem unsigned_accessors_mod_max : ∀ s : Nat,
    (rand_u8 s = (rotate s % (2 ^ 8 - 1), rotate s) ∧
      (rand_u8 s).1 < 2 ^ 8 - 1) ∧
    (rand_u16 s = (rotate s % (2 ^ 16 - 1), rotate s) ∧
      (rand_u16 s).1 < 2 ^ 16 - 1) ∧
    (rand_u32 s = (rotate s % (2 ^ 32 - 1), rotate s) ∧
      (rand_u32 s).1 < 2 ^ 32 - 1) ∧
    (rand_u64 s = (rotate s % (2 ^ 64 - 1), rotate s) ∧
      (rand_u64 s).1 < 2 ^ 64 - 1) := by
  intro s
  have h8 : rand_u8 s = (rotate s % (2 ^ 8 - 1), rotate s) :=
    implement_unsigned_eq _ _ s (by norm_num) (by norm_num)
  have h16 : rand_u16 s = (rotate s % (2 ^ 16 - 1), rotate s) :=
    implement_unsigned_eq _ _ s (by norm_num) (by norm_num)
  have h32 : rand_u32 s = (rotate s % (2 ^ 32 - 1), rotate s) :=
    implement_unsigned_eq _ _ s (by norm_num) (by norm_num)
  have h64 : rand_u64 s = (rotate s % (2 ^ 64 - 1), rotate s) :=
    implement_unsigned_eq _ _ s (by norm_num) (by norm_num)
  refine ⟨⟨h8, ?_⟩, ⟨h16, ?_⟩, ⟨h32, ?_⟩, ⟨h64, ?_⟩⟩
  · rw [h8]; exact Nat.mod_lt _ (by norm_num)
  · rw [h16]; exact Nat.mod_lt _ (by norm_num)
  · rw [h32]; exact Nat.mod_lt _ (by norm_num)
  · rw [h64]; exact Nat.mod_lt _ (by norm_num)

lemma toSigned_of_lt (bits x : Nat) (hb : 1 ≤ bits) (hx : x < 2 ^ (bits - 1)) :
    toSigned bits x = (x : Int) := by
  have hxb : x < 2 ^ bits :=
    lt_of_lt_of_le hx (Nat.pow_le_pow_right (by norm_num) (by omega))
  simp only [toSigned]
  rw [Nat.mod_eq_of_lt hxb, if_pos hx]

lemma implement_signed_eq (bits s : Nat) (hb : 2 ≤ bits) :
    implement_signed bits s =
      (if rotate (rotate s) >>> (SEED_SIZE_BITS - 1) &&& 1 = 1
        then -((rotate s % (2 ^ (bits - 1) - 1) : Nat) : Int)
        else ((rotate s % (2 ^ (bits - 1) - 1) : Nat) : Int),
      rotate (rotate s)) := by
  have h2 : 2 ≤ 2 ^ (bits - 1) := by
    calc (2 : Nat) = 2 ^ 1 := rfl
      _ ≤ 2 ^ (bits - 1) := Nat.pow_le_pow_right (by norm_num) (by omega)
  have hM : 0 < 2 ^ (bits - 1) - 1 := by omega
  have hcand : rotate s % (2 ^ (bits - 1) - 1) < 2 ^ (bits - 1) := by
    have := Nat.mod_lt (rotate s) hM
    omega
  simp only [implement_signed, random, rand_bool]
  rw [toSigned_of_lt _ _ (by omega) hcand]
  simp only [beq_iff_eq, mul_neg_one]

/-- Claim C4: each signed accessor rand_iN (N in {8,16,32,64,128}) computes
    a non-negative candidate equal to the rotated state reduced modulo
    2 ^ (N - 1) - 1, performs one additional rotation to derive a boolean
    from the most-significant bit, and negates the candidate exactly when
    that boolean is true. -/
theorem signed_accessors_structure : ∀ s : Nat,
    (rand_i8 s =
      (if rotate (rotate s) >>> 127 &&& 1 = 1
        then -((rotate s % (2 ^ 7 - 1) : Nat) : Int)
        else ((rotate s % (2 ^ 7 - 1) : Nat) : Int), rotate (rotate s))) ∧
    (rand_i16 s =
      (if rotate (rotate s) >>> 127 &&& 1 = 1
        then -((rotate s % (2 ^ 15 - 1) : Nat) : Int)
        else ((rotate s % (2 ^ 15 - 1) : Nat) : Int), rotate (rotate s))) ∧
    (rand_i32 s =
      (if rotate (rotate s) >>> 127 &&& 1 = 1
        then -((rotate s % (2 ^ 31 - 1) : Nat) : Int)
        else ((rotate s % (2 ^ 31 - 1) : Nat) : Int), rotate (rotate s))) ∧
    (rand_i64 s =
      (if rotate (rotate s) >>> 127 &&& 1 = 1
        then -((rotate s % (2 ^ 63 - 1) : Nat) : Int)
        else ((rotate s % (2 ^ 63 - 1) : Nat) : Int), rotate (rotate s))) ∧
    (rand_i128 s =
      (if rotate (rotate s) >>> 127 &&& 1 = 1
        then -((rotate s % (2 ^ 127 - 1) : Nat) : Int)
        else ((rotate s % (2 ^ 127 - 1) : Nat) : Int), rotate (rotate s))) := by
  intro s
  exact ⟨implement_signed_eq 8 s (by norm_num),
    implement_signed_eq 16 s (by norm_num),
    implement_signed_eq 32 s (by norm_num),
    implement_signed_eq 64 s (by norm_num),
    implement_signed_eq 128 s (by norm_num)⟩

lemma implement_signed_bound (bits s : Nat) (hb : 2 ≤ bits) :
    -(((2 ^ (bits - 1) - 2 : Nat)) : Int) ≤ (implement_signed bits s).1 ∧
    (implement_signed bits s).1 ≤ ((2 ^ (bits - 1) - 2 : Nat) : Int) := by
  have h2 : 2 ≤ 2 ^ (bits - 1) := by
    calc (2 : Nat) = 2 ^ 1 := rfl
      _ ≤ 2 ^ (bits - 1) := Nat.pow_le_pow_right (by norm_num) (by omega)
  have hx : rotate s % (2 ^ (bits - 1) - 1) ≤ 2 ^ (bits - 1) - 2 := by
    have := Nat.mod_lt (rotate s) (show 0 < 2 ^ (bits - 1) - 1 by omega)
    omega
  rw [implement_signed_eq bits s hb]
  set x := rotate s % (2 ^ (bits - 1) - 1) with hxd
  set M := 2 ^ (bits - 1) - 2 with hMd
  dsimp only
  constructor <;> split <;> omega

/-- Claim C10: every signed accessor returns a value between
    -(2 ^ (N - 1) - 2) and 2 ^ (N - 1) - 2, so it never returns the
    type's minimum value and the negation step cannot overflow. -/
theorem signed_accessors_range : ∀ s : Nat,
    (-(2 ^ 7 - 2) ≤ (rand_i8 s).1 ∧ (rand_i8 s).1 ≤ 2 ^ 7 - 2) ∧
    (-(2 ^ 15 - 2) ≤ (rand_i16 s).1 ∧ (rand_i16 s).1 ≤ 2 ^ 15 - 2) ∧
    (-(2 ^ 31 - 2) ≤ (rand_i32 s).1 ∧ (rand_i32 s).1 ≤ 2 ^ 31 - 2) ∧
    (-(2 ^ 63 - 2) ≤ (rand_i64 s).1 ∧ (rand_i64 s).1 ≤ 2 ^ 63 - 2) ∧
    (-(2 ^ 127 - 2) ≤ (rand_i128 s).1 ∧ (rand_i128 s).1 ≤ 2 ^ 127 - 2) := by
  intro s
  have h8 : -(((2 ^ 7 - 2 : Nat)) : Int) ≤ (rand_i8 s).1 ∧
      (rand_i8 s).1 ≤ ((2 ^ 7 - 2 : Nat) : Int) :=
    implement_signed_bound 8 s (by norm_num)
  have h16 : -(((2 ^ 15 - 2 : Nat)) : Int) ≤ (rand_i16 s).1 ∧
      (rand_i16 s).1 ≤ ((2 ^ 15 - 2 : Nat) : Int) :=
    implement_signed_bound 16 s (by norm_num)
  have h32 : -(((2 ^ 31 - 2 : Nat)) : Int) ≤ (rand_i32 s).1 ∧
      (rand_i32 s).1 ≤ ((2 ^ 31 - 2 : Nat) : Int) :=
    implement_signed_bound 32 s (by norm_num)
  have h64 : -(((2 ^ 63 - 2 : Nat)) : Int) ≤ (rand_i64 s).1 ∧
      (rand_i64 s).1 ≤ ((2 ^ 63 - 2 : Nat) : Int) :=
    implement_signed_bound 64 s (by norm_num)
  have h128 : -(((2 ^ 127 - 2 : Nat)) : Int) ≤ (rand_i128 s).1 ∧
      (rand_i128 s).1 ≤ ((2 ^ 127 - 2 : Nat) : Int) :=
    implement_signed_bound 128 s (by norm_num)
  norm_num at h8 h16 h32 h64 h128 ⊢
  exact ⟨h8, h16, h32, h64, h128⟩

/-- Claim C5: every unsigned, boolean and floating-point accessor advances
    the internal state by exactly one rotation step, and every signed
    accessor advances it by exactly two. -/
theorem accessor_rotation_count : ∀ s : Nat,
    (random s).2 = rotate s ∧
    (rand_u128 s).2 = rotate s ∧
    (rand_bool s).2 = rotate s ∧
    (rand_u8 s).2 = rotate s ∧
    (rand_u16 s).2 = rotate s ∧
    (rand_u32 s).2 = rotate s ∧
    (rand_u64 s).2 = rotate s ∧
    (rand_f32 s).2 = rotate s ∧
    (rand_f64 s).2 = rotate s ∧
    (rand_i8 s).2 = rotate (rotate s) ∧
    (rand_i16 s).2 = rotate (rotate s) ∧
    (rand_i32 s).2 = rotate (rotate s) ∧
    (rand_i64 s).2 = rotate (rotate s) ∧
    (rand_i128 s).2 = rotate (rotate s) := by
  intro s
  exact ⟨rfl, rfl, rfl, rfl, rfl, rfl, rfl, rfl, rfl, rfl, rfl, rfl, rfl, rfl⟩

/-- Claim C6: two generators constructed from equal Manual seed values and
    driven through the same accessor call sequence produce identical output
    sequences (and identical final states), regardless of the environment. -/
theorem manual_seed_determinism :
    ∀ (env₁ env₂ : Env) (v w : Nat) (calls : List Call), v = w →
      (get_seed env₁ (RandomSeedSource.Manual v)).map (run calls) =
      (get_seed env₂ (RandomSeedSource.Manual w)).map (run calls) := by
  intro env₁ env₂ v w calls h
  subst h
  rfl

/-- Witness for C6: the spec's seed-equality scenario, Manual seed 42
    followed by three rand_u8 calls. -/
theorem manual_seed_determinism_witness :
    (42 : Nat) = 42 ∧
    (get_seed ⟨0, 0, fun _ => none⟩ (RandomSeedSource.Manual 42)).map
        (run [Call.cU8, Call.cU8, Call.cU8]) =
      (get_seed ⟨1, 1, fun _ => some []⟩ (RandomSeedSource.Manual 42)).map
        (run [Call.cU8, Call.cU8, Call.cU8]) :=
  ⟨rfl, manual_seed_determinism _ _ 42 42 _ rfl⟩

/-- Claim C8: Manual construction never fails and stores the supplied value
    unchanged; device construction fails with an IoError exactly when the
    device cannot be opened or yields fewer than SEED_SIZE bytes; and every
    accessor is total, producing one value per call. -/
theorem construction_failure_characterization :
    (∀ (env : Env) (v : Nat),
      Random.new env (RandomSeedSource.Manual v) = .ok ⟨v⟩) ∧
    (∀ (env : Env) (src : RandomSeedSource),
      (∃ e, Random.new env src = .error e) ↔
        ((src = RandomSeedSource.UrandomDev ∧ deviceFails env "urandom") ∨
         (src = RandomSeedSource.RandomDev ∧ deviceFails env "random"))) ∧
    (∀ (calls : List Call) (s : Nat), (run calls s).1.length = calls.length) := by
  refine ⟨fun env v => rfl, ?_, ?_⟩
  · intro env src
    constructor
    · rintro ⟨e, he⟩
      cases src with
      | Manual n => simp [Random.new, get_seed, Except.map] at he
      | SystemTime => simp [Random.new, get_seed, Except.map] at he
      | Crand => simp [Random.new, get_seed, Except.map] at he
      | UrandomDev =>
        refine Or.inl ⟨rfl, ?_⟩
        simp only [Random.new, get_seed, read_from_randdev] at he
        cases hd : env.device "urandom" with
        | none => exact Or.inl hd
        | some bs =>
          rw [hd] at he
          by_cases hl : bs.length < SEED_SIZE
          · exact Or.inr ⟨bs, hd, hl⟩
          · simp [hl, Except.map] at he
      | RandomDev =>
        refine Or.inr ⟨rfl, ?_⟩
        simp only [Random.new, get_seed, read_from_randdev] at he
        cases hd : env.device "random" with
        | none => exact Or.inl hd
        | some bs =>
          rw [hd] at he
          by_cases hl : bs.length < SEED_SIZE
          · exact Or.inr ⟨bs, hd, hl⟩
          · simp [hl, Except.map] at he
    · rintro (⟨rfl, hf⟩ | ⟨rfl, hf⟩)
      · rcases hf with hnone | ⟨bs, hbs, hl⟩
        · exact ⟨.openFailed,
            by simp [Random.new, get_seed, read_from_randdev, hnone, Except.map]⟩
        · exact ⟨.shortRead,
            by simp [Random.new, get_seed, read_from_randdev, hbs, hl, Except.map]⟩
      · rcases hf with hnone | ⟨bs, hbs, hl⟩
        · exact ⟨.openFailed,
            by simp [Random.new, get_seed, read_from_randdev, hnone, Except.map]⟩
        · exact ⟨.shortRead,
            by simp [Random.new, get_seed, read_from_randdev, hbs, hl, Except.map]⟩
  · intro calls s
    induction calls generalizing s with
    | nil => rfl
    | cons c cs ih => simp [run, ih]

/-- Witness for C8: a device that cannot be opened makes construction from
    the urandom source fail with an error. -/
theorem construction_failure_characterization_witness :
    ∃ e, Random.new ⟨0, 0, fun _ => none⟩ RandomSeedSource.UrandomDev =
      .error e :=
  (construction_failure_characterization.2.1 ⟨0, 0, fun _ => none⟩
      RandomSeedSource.UrandomDev).mpr
    (Or.inl ⟨rfl, Or.inl rfl⟩)

/-- Claim C3 fails on the code: rand_f32 is built from rand_u64 (not
    rand_u32) while dividing by the 32-bit maximum, so at the state 2 ^ 64
    it evaluates to 2 ^ 63 / (2 ^ 32 - 1), which is far above 1, and
    differs from the value the rand_u32-based derivation would give. -/
theorem rand_f32_exceeds_unit_range :
    (rand_f32 (2 ^ 64)).1 = (2 ^ 63 : ℚ) / (2 ^ 32 - 1) ∧
    1 < (rand_f32 (2 ^ 64)).1 ∧
    (rand_f32 (2 ^ 64)).1 ≠ ((rand_u32 (2 ^ 64)).1 : ℚ) / (2 ^ 32 - 1) := by
  have hu64 : (rand_u64 (2 ^ 64)).1 = 2 ^ 63 := by decide
  have hu32 : (rand_u32 (2 ^ 64)).1 = 2 ^ 31 := by decide
  have hval : (rand_f32 (2 ^ 64)).1 = (2 ^ 63 : ℚ) / (2 ^ 32 - 1) := by
    show ((rand_u64 (2 ^ 64)).1 : ℚ) / (((2 ^ 32 - 1 : Nat) : Nat) : ℚ) = _
    rw [hu64]
    norm_num
  refine ⟨hval, ?_, ?_⟩
  · rw [hval, lt_div_iff₀ (by norm_num)]
    norm_num
  · rw [hval, hu32]
    norm_num

/-- Sanity complement to C3: the rand_f64 accessor does satisfy the claimed
    closed unit range, since its sample is below its divisor. -/
theorem rand_f64_in_unit_range : ∀ s : Nat,
    0 ≤ (rand_f64 s).1 ∧ (rand_f64 s).1 ≤ 1 := by
  intro s
  have hlt : (rand_u64 s).1 < 2 ^ 64 - 1 := by
    have h := implement_unsigned_eq (2 ^ 64 - 1) 64 s (by norm_num) (by norm_num)
    rw [show rand_u64 s = implement_unsigned (2 ^ 64 - 1) 64 s from rfl, h]
    exact Nat.mod_lt _ (by norm_num)
  have hshow : (rand_f64 s).1 =
      ((rand_u64 s).1 : ℚ) / (((2 ^ 64 - 1 : Nat) : Nat) : ℚ) := rfl
  rw [hshow]
  constructor
  · positivity
  · rw [div_le_one (by norm_num)]
    have : ((rand_u64 s).1 : ℚ) < (((2 ^ 64 - 1 : Nat) : Nat) : ℚ) := by
      exact_mod_cast hlt
    linarith

end Randlib
